import Mathlib

/-!
Shallow embedding of the watch-and-select core of the `consul-rs` crate
(`src/api.rs`, `src/health.rs`, `src/watch.rs`, `src/agent.rs`).

The embedding keeps the source's names where Lean allows it.  Machine
integers (`u64` indices, `usize` ports) are modelled as `Nat`: the code only
stores, compares for equality and formats them, so no overflow behaviour is
observable.  A Rust `panic!` (a failing `Option::unwrap`) is modelled by
returning `none`; a `surf::Result` is modelled by `Except String`.
-/

namespace ConsulRs

/-- The fields of `agent::AgentService` read by `get_address`
(`api.rs` lines 279-294).  The remaining fields of the Rust struct are
never read by the watch-and-select core and carry no information for it. -/
structure AgentService where
  Address : Option String
  Port : Option Nat
  ModifyIndex : Option Nat
deriving Repr, DecidableEq

/-- `health::ServiceEntry`: one record of the health-endpoint response.
`Node` and `Checks` are never read by `get_address`, so only the `Service`
descriptor is carried. -/
structure ServiceEntry where
  Service : Option AgentService
deriving Repr, DecidableEq

/-- `health::ServiceAddress`: one cache entry.  `address_link` is the
`LinkedList` the source fills with exactly the same strings, in the same
order, as the `address` vector. -/
structure ServiceAddress where
  index : Nat
  address : List String
  address_link : List String
deriving Repr, DecidableEq

/-- `ServiceAddress::default()`. -/
def ServiceAddress.default : ServiceAddress :=
  { index := 0, address := [], address_link := [] }

/-- `watch::WatchService`: one watch target.  The fields `query` and
`balancer_name` are never read by the modelled code and are omitted. -/
structure WatchService where
  service_name : String
  tag : Option String
  passing_only : Option Bool
deriving Repr, DecidableEq

/-- The part of `api::Config` read by `health_service`: only `wait_time`
feeds the query parameters of the blocking query. -/
structure Config where
  wait_time : Option String
deriving Repr, DecidableEq

/-- The shared `SERVICES_ADDRESS` map, `HashMap<String, ServiceAddress>`,
modelled as a lookup function. -/
abbrev Cache := String → Option ServiceAddress

/-- `HashMap::insert` on the shared map. -/
def cacheInsert (cache : Cache) (key : String) (v : ServiceAddress) : Cache :=
  fun k => if k = key then some v else cache k

/-- The `for val in entry.iter()` loop of `get_address` (`api.rs` 278-294).
State carried across iterations: the `service_addresses` vector so far and
the mutable `index` variable (initialised to 0 by the caller).  A record
whose service has an address and a port but no `ModifyIndex` hits
`v.ModifyIndex.unwrap()` and panics: modelled as `none`.  Note that `index`
is overwritten by every record that has both an address and a port, also by
the ones skipped because their index equals `cur_index`. -/
def get_address_loop (cur_index : Nat) :
    List ServiceEntry → List String → Nat → Option (List String × Nat)
  | [], service_addresses, index => some (service_addresses, index)
  | val :: rest, service_addresses, index =>
    match val.Service with
    | none => get_address_loop cur_index rest service_addresses index
    | some v =>
      match v.Address, v.Port with
      | some address, some port =>
        match v.ModifyIndex with
        | none => none
        | some mi =>
          if mi = cur_index then
            get_address_loop cur_index rest service_addresses mi
          else
            get_address_loop cur_index rest
              (service_addresses ++ [address ++ ":" ++ toString port]) mi
      | _, _ => get_address_loop cur_index rest service_addresses index

/-- The cache key as `get_address` computes it (`api.rs` 298-302):
`format!("{}{}", watch_service.service_name, tag)` with `tag` taken from
the option when present and `""` otherwise. -/
def get_address_key (watch_service : WatchService) : String :=
  match watch_service.tag with
  | some tag => watch_service.service_name ++ tag
  | none => watch_service.service_name ++ ""

/-- `ConsulConfig::get_address` (`api.rs` 271-310), after `health_service`
has produced the pair `(cur_index, entry)`.  Returns `none` on panic.  An
empty filtered list short-circuits to `("", ServiceAddress::default())`;
otherwise the entry is built from the final `index` variable and the two
address containers. -/
def get_address (watch_service : WatchService) (cur_index : Nat)
    (entry : List ServiceEntry) : Option (String × ServiceAddress) :=
  match get_address_loop cur_index entry [] 0 with
  | none => none
  | some (service_addresses, index) =>
    if service_addresses.length = 0 then
      some ("", ServiceAddress.default)
    else
      some (get_address_key watch_service,
        { index := index, address := service_addresses,
          address_link := service_addresses })

/-- The cache key as `health_service` computes it (`api.rs` 230-236):
`tag = watch_service.tag.unwrap_or(default)` with `default = ""`. -/
def health_service_key (watch_service : WatchService) : String :=
  watch_service.service_name ++ watch_service.tag.getD ""

/-- The cache key as `random_policy` computes it (`api.rs` 313). -/
def random_policy_key (service_name tag : String) : String :=
  service_name ++ tag

/-- The cached index for a key: `service_address.index` when present,
`0` when the key was never polled (`api.rs` 237-242). -/
def cachedIndex (cache : Cache) (key : String) : Nat :=
  match cache key with
  | some service_address => service_address.index
  | none => 0

/-- The query-parameter map built by `health_service` (`api.rs` 227-259),
one field per possible key of the `HashMap<&str, String>` it fills. -/
structure HealthQuery where
  tag : Option String
  index : String
  passing : Option String
  wait : Option String
deriving Repr, DecidableEq

/-- `ConsulConfig::health_service` (`api.rs` 221-269), the pure part that
builds the query parameters: `tag` inserted only when non-empty, `index`
always inserted from the cache (0 when absent), `passing = "1"` and `wait`
inserted only when `passing_only` is `Some(true)`, with `wait` taken from
`config.wait_time` and defaulting to `"5s"`. -/
def health_service_query (config : Config) (cache : Cache)
    (watch_service : WatchService) : HealthQuery :=
  let tag := watch_service.tag.getD ""
  let key := watch_service.service_name ++ tag
  let index := cachedIndex cache key
  match watch_service.passing_only with
  | some true =>
    { tag := if tag = "" then none else some tag
      index := toString index
      passing := some "1"
      wait := some (match config.wait_time with
        | some wait => wait
        | none => "5s") }
  | _ =>
    { tag := if tag = "" then none else some tag
      index := toString index
      passing := none
      wait := none }

/-- `ConsulConfig::random_policy` (`api.rs` 312-335).  The random draw
`r.gen_range(0..range)` is modelled by an arbitrary `rng : Nat` reduced
modulo `range`, which captures exactly the contract that for `range > 0`
the draw lies in `[0, range)`.  The `.get(idx).unwrap()` panic is modelled
as the outer `none`. -/
def random_policy (cache : Cache) (service_name tag : String) (rng : Nat) :
    Option (Except String String) :=
  let key := random_policy_key service_name tag
  match cache key with
  | some service_addresses =>
    let range := service_addresses.address.length
    if range = 0 then
      some (Except.error "consul server address is empty")
    else
      match service_addresses.address.get? (rng % range) with
      | some address => some (Except.ok address)
      | none => none
  | none => some (Except.error "consul server address is empty")

/-- One target's outcome in a round of `watch_services`: what the awaited
`get_address` future yields, `Err` on a failed poll. -/
abbrev PollResult := Except String (String × ServiceAddress)

/-- The collection loop of `watch_services` (`api.rs` 203-208): results are
awaited in order, the `?` on `v.await?` propagates the first error out of
`watch_services`, and a successful pair is kept only when its key is not
`""`. -/
def collect_round : List PollResult →
    Except String (List (String × ServiceAddress))
  | [] => Except.ok []
  | Except.error e :: _ => Except.error e
  | Except.ok kv :: rest =>
    match collect_round rest with
    | Except.error e => Except.error e
    | Except.ok l => Except.ok (if kv.1 ≠ "" then kv :: l else l)

/-- One round of `watch_services`' infinite loop (`api.rs` 195-216): await
every target's `get_address`, abort the whole function on the first `Err`,
otherwise insert every collected pair into the shared map. -/
def watch_round (cache : Cache) (results : List PollResult) :
    Except String Cache :=
  match collect_round results with
  | Except.error e => Except.error e
  | Except.ok kvs =>
    Except.ok (kvs.foldl (fun c kv => cacheInsert c kv.1 kv.2) cache)

/-- Reference function for claim C4, written from the spec's words: the
records carrying both an address and a port whose per-record `ModifyIndex`
differs from the index cached at the start of the round, formatted
`host:port`, in response order. -/
def filtered_addresses (cur_index : Nat) (entry : List ServiceEntry) :
    List String :=
  entry.filterMap (fun e => match e.Service with
    | some v =>
      match v.Address, v.Port, v.ModifyIndex with
      | some address, some port, some mi =>
        if mi = cur_index then none else some (address ++ ":" ++ toString port)
      | _, _, _ => none
    | none => none)

/-- Reference function for claim C2, written from the spec's words: the
maximum per-record `ModifyIndex` seen across the records of the response,
or the previous cached index if no record carried one. -/
def spec_max_index (prev : Nat) (entry : List ServiceEntry) : Nat :=
  let idxs := entry.filterMap (fun e => match e.Service with
    | some v => v.ModifyIndex
    | none => none)
  match idxs with
  | [] => prev
  | _ :: _ => idxs.foldl Nat.max 0

/-- What the `index` variable of `get_address` actually holds at the end of
the loop: the `ModifyIndex` of the last record carrying both an address and
a port (skipped records included), or the initial accumulator if there is
no such record. -/
def last_modify_index (entry : List ServiceEntry) (acc : Nat) : Nat :=
  entry.foldl (fun a e => match e.Service with
    | some v =>
      match v.Address, v.Port, v.ModifyIndex with
      | some _, some _, some mi => mi
      | _, _, _ => a
    | none => a) acc

/-- `true` when a record cannot make `v.ModifyIndex.unwrap()` panic: either
it has no service descriptor, or the descriptor lacks an address or a port,
or it carries a `ModifyIndex`. -/
def modify_index_present (e : ServiceEntry) : Bool :=
  match e.Service with
  | some v => !(v.Address.isSome && v.Port.isSome) || v.ModifyIndex.isSome
  | none => true

/-! ### Helper lemmas about the `get_address` loop -/

theorem get_address_loop_addresses (cur_index : Nat) (entry : List ServiceEntry) :
    ∀ (acc : List String) (i0 : Nat) (addrs : List String) (i : Nat),
    get_address_loop cur_index entry acc i0 = some (addrs, i) →
    addrs = acc ++ filtered_addresses cur_index entry := by
  induction entry with
  | nil =>
    intro acc i0 addrs i h
    simp only [get_address_loop, Option.some.injEq, Prod.mk.injEq] at h
    simp [filtered_addresses, h.1]
  | cons e rest ih =>
    intro acc i0 addrs i h
    rw [get_address_loop] at h
    split at h
    next hs =>
      simpa [filtered_addresses, hs] using ih acc i0 addrs i h
    next v hs =>
      split at h
      next address port ha hp =>
        split at h
        next hm => cases h
        next mi hm =>
          split at h
          next hmi =>
            simpa [filtered_addresses, hs, ha, hp, hm, hmi]
              using ih acc mi addrs i h
          next hmi =>
            have := ih (acc ++ [address ++ ":" ++ toString port]) mi addrs i h
            simp [filtered_addresses, hs, ha, hp, hm, hmi, this]
      next hnot =>
        have hrest := ih acc i0 addrs i h
        cases ha : v.Address with
        | none => simpa [filtered_addresses, hs, ha] using hrest
        | some address =>
          cases hp : v.Port with
          | none => simpa [filtered_addresses, hs, ha, hp] using hrest
          | some port => exact (hnot address port ha hp).elim

theorem get_address_loop_index (cur_index : Nat) (entry : List ServiceEntry) :
    ∀ (acc : List String) (i0 : Nat) (addrs : List String) (i : Nat),
    get_address_loop cur_index entry acc i0 = some (addrs, i) →
    i = last_modify_index entry i0 := by
  induction entry with
  | nil =>
    intro acc i0 addrs i h
    simp only [get_address_loop, Option.some.injEq, Prod.mk.injEq] at h
    simp [last_modify_index, h.2]
  | cons e rest ih =>
    intro acc i0 addrs i h
    rw [get_address_loop] at h
    split at h
    next hs =>
      simpa [last_modify_index, hs] using ih acc i0 addrs i h
    next v hs =>
      split at h
      next address port ha hp =>
        split at h
        next hm => cases h
        next mi hm =>
          split at h
          next hmi =>
            simpa [last_modify_index, hs, ha, hp, hm] using ih acc mi addrs i h
          next hmi =>
            simpa [last_modify_index, hs, ha, hp, hm]
              using ih (acc ++ [address ++ ":" ++ toString port]) mi addrs i h
      next hnot =>
        have hrest := ih acc i0 addrs i h
        cases ha : v.Address with
        | none => simpa [last_modify_index, hs, ha] using hrest
        | some address =>
          cases hp : v.Port with
          | none => simpa [last_modify_index, hs, ha, hp] using hrest
          | some port => exact (hnot address port ha hp).elim

theorem get_address_loop_isSome (cur_index : Nat) (entry : List ServiceEntry) :
    ∀ (acc : List String) (i0 : Nat),
    (∀ e ∈ entry, modify_index_present e = true) →
    (get_address_loop cur_index entry acc i0).isSome = true := by
  induction entry with
  | nil => intro acc i0 _; rfl
  | cons e rest ih =>
    intro acc i0 h
    have hrest : ∀ x ∈ rest, modify_index_present x = true :=
      fun x hx => h x (List.mem_cons_of_mem e hx)
    rw [get_address_loop]
    split
    next hs => exact ih acc i0 hrest
    next v hs =>
      split
      next address port ha hp =>
        split
        next hm =>
          have he := h e (List.mem_cons_self e rest)
          simp [modify_index_present, hs, ha, hp, hm] at he
        next mi hm =>
          split
          next hmi => exact ih acc mi hrest
          next hmi => exact ih (acc ++ [address ++ ":" ++ toString port]) mi hrest
      next hnot => exact ih acc i0 hrest

/-- Case analysis of `get_address`'s result: the loop succeeded, and either
the filtered list was empty and the sentinel pair was returned, or the real
key and a fully built entry were. -/
theorem get_address_spec (w : WatchService) (cur_index : Nat)
    (entry : List ServiceEntry) (k : String) (sa : ServiceAddress)
    (h : get_address w cur_index entry = some (k, sa)) :
    ∃ addrs i, get_address_loop cur_index entry [] 0 = some (addrs, i) ∧
      ((addrs = [] ∧ k = "" ∧ sa = ServiceAddress.default) ∨
       (addrs ≠ [] ∧ k = get_address_key w ∧
         sa = { index := i, address := addrs, address_link := addrs })) := by
  unfold get_address at h
  split at h
  next hl => cases h
  next service_addresses index hl =>
    refine ⟨service_addresses, index, hl, ?_⟩
    split at h
    next h0 =>
      simp only [Option.some.injEq, Prod.mk.injEq] at h
      exact Or.inl ⟨List.length_eq_zero.mp h0, h.1.symm, h.2.symm⟩
    next h0 =>
      simp only [Option.some.injEq, Prod.mk.injEq] at h
      exact Or.inr ⟨fun hc => h0 (by simp [hc]), h.1.symm, h.2.symm⟩

/-- A pair committed by `get_address` under a non-empty key always holds a
non-empty address list (the empty list short-circuits to the `""` key). -/
theorem get_address_nonempty (w : WatchService) (cur_index : Nat)
    (entry : List ServiceEntry) (k : String) (sa : ServiceAddress)
    (h : get_address w cur_index entry = some (k, sa)) (hk : k ≠ "") :
    sa.address ≠ [] := by
  obtain ⟨addrs, i, _, hcase⟩ := get_address_spec w cur_index entry k sa h
  rcases hcase with ⟨_, hk0, _⟩ | ⟨hne, _, hsa⟩
  · exact absurd hk0 hk
  · rw [hsa]; exact hne

/-! ### Helper lemmas about the watch round and the cache -/

/-- A successful result whose key is `""` contributes nothing to a round:
the `key != ""` guard drops it before the insertion phase. -/
theorem collect_round_skip (sa : ServiceAddress) (rs₁ rs₂ : List PollResult) :
    collect_round (rs₁ ++ Except.ok ("", sa) :: rs₂) =
      collect_round (rs₁ ++ rs₂) := by
  induction rs₁ with
  | nil =>
    show collect_round (Except.ok ("", sa) :: rs₂) = collect_round rs₂
    rw [collect_round]
    cases h : collect_round rs₂ <;> simp
  | cons r rs ih =>
    cases r with
    | error e => rfl
    | ok kv =>
      show collect_round (Except.ok kv :: (rs ++ Except.ok ("", sa) :: rs₂)) =
        collect_round (Except.ok kv :: (rs ++ rs₂))
      rw [collect_round, collect_round, ih]

/-- Every pair kept by the collection loop is a successful result of the
round and carries a non-empty key. -/
theorem collect_round_mem (results : List PollResult) :
    ∀ (kvs : List (String × ServiceAddress)),
    collect_round results = Except.ok kvs →
    ∀ kv ∈ kvs, Except.ok kv ∈ results ∧ kv.1 ≠ "" := by
  induction results with
  | nil =>
    intro kvs h kv hkv
    simp only [collect_round, Except.ok.injEq] at h
    subst h
    simp at hkv
  | cons r rest ih =>
    intro kvs h kv hkv
    cases r with
    | error e => cases h
    | ok kv0 =>
      rw [collect_round] at h
      split at h
      next he => cases h
      next l hl =>
        simp only [Except.ok.injEq] at h
        subst h
        by_cases h0 : kv0.1 = ""
        · rw [if_neg (by simpa using h0)] at hkv
          obtain ⟨hmem, hne⟩ := ih l hl kv hkv
          exact ⟨List.mem_cons_of_mem _ hmem, hne⟩
        · rw [if_pos (by simpa using h0)] at hkv
          rcases List.mem_cons.mp hkv with rfl | hkv'
          · exact ⟨List.mem_cons_self _ _, h0⟩
          · obtain ⟨hmem, hne⟩ := ih l hl kv hkv'
            exact ⟨List.mem_cons_of_mem _ hmem, hne⟩

/-- Committing a list of pairs whose address lists are all non-empty
preserves the invariant that every cache entry has a non-empty address
list. -/
theorem foldl_insert_inv :
    ∀ (kvs : List (String × ServiceAddress)) (cache : Cache),
    (∀ kv ∈ kvs, kv.2.address ≠ []) →
    (∀ k sa, cache k = some sa → sa.address ≠ []) →
    ∀ k sa,
      (kvs.foldl (fun c kv => cacheInsert c kv.1 kv.2) cache) k = some sa →
      sa.address ≠ [] := by
  intro kvs
  induction kvs with
  | nil => intro cache _ h2 k sa h; exact h2 k sa h
  | cons kv rest ih =>
    intro cache h1 h2 k sa h
    rw [List.foldl_cons] at h
    refine ih (cacheInsert cache kv.1 kv.2)
      (fun x hx => h1 x (List.mem_cons_of_mem _ hx)) ?_ k sa h
    intro k' sa' h'
    unfold cacheInsert at h'
    by_cases hk : k' = kv.1
    · rw [if_pos hk] at h'
      obtain rfl := Option.some.inj h'
      exact h1 kv (List.mem_cons_self _ _)
    · rw [if_neg hk] at h'
      exact h2 k' sa' h'

/-- On a populated key with a non-empty address list, `random_policy`
returns `Ok` with an element of the stored list: the modular draw is in
range, so the `Vec::get` never misses. -/
theorem random_policy_ok (cache : Cache) (service_name tag : String)
    (rng : Nat) (sa : ServiceAddress)
    (h : cache (service_name ++ tag) = some sa) (hne : sa.address ≠ []) :
    ∃ a, random_policy cache service_name tag rng = some (Except.ok a) ∧
      a ∈ sa.address := by
  have hlen : sa.address.length ≠ 0 := fun hl => hne (List.length_eq_zero.mp hl)
  have hlt : rng % sa.address.length < sa.address.length :=
    Nat.mod_lt _ (Nat.pos_of_ne_zero hlen)
  simp only [random_policy, random_policy_key, h]
  rw [if_neg hlen]
  cases hg : sa.address.get? (rng % sa.address.length) with
  | none => exact absurd (List.get?_eq_none.mp hg) (Nat.not_le_of_lt hlt)
  | some a => simp only [hg]; exact ⟨a, rfl, List.get?_mem hg⟩

/-! ### Claim theorems -/

/-- Claim C1 (code behaviour at the failing input).  The claim says a
failed poll is contained: it must not abort the watch loop and must not
prevent the other targets' results from being committed.  The code instead
propagates the failure through the `?` on `v.await?` (`api.rs` 204): in a
round with one failing poll and one successful poll, `watch_round` returns
the error — in either order — so the loop function returns, and the
successful target's pair is never committed to the cache. -/
theorem watch_round_aborts_on_single_poll_failure :
    watch_round (fun _ => none)
      [Except.error "connection refused",
       Except.ok ("web", ⟨5, ["10.0.0.1:8080"], ["10.0.0.1:8080"]⟩)] =
      Except.error "connection refused" ∧
    watch_round (fun _ => none)
      [Except.ok ("web", ⟨5, ["10.0.0.1:8080"], ["10.0.0.1:8080"]⟩),
       Except.error "connection refused"] =
      Except.error "connection refused" := ⟨rfl, rfl⟩

/-- Claim C2 (counterexample).  A response with two committed records whose
`ModifyIndex` values are 5 then 3 yields a cache entry with `index = 3`
(the last per-record index seen), while the maximum per-record index of the
response is 5: the stored index is not the maximum. -/
theorem stored_index_not_max_counterexample :
    get_address ⟨"web", none, none⟩ 0
      [⟨some ⟨some "10.0.0.1", some 8080, some 5⟩⟩,
       ⟨some ⟨some "10.0.0.2", some 9090, some 3⟩⟩] =
      some ("web",
        ⟨3, ["10.0.0.1:8080", "10.0.0.2:9090"],
         ["10.0.0.1:8080", "10.0.0.2:9090"]⟩) ∧
    spec_max_index 0
      [⟨some ⟨some "10.0.0.1", some 8080, some 5⟩⟩,
       ⟨some ⟨some "10.0.0.2", some 9090, some 3⟩⟩] = 5 ∧
    (3 : Nat) ≠ 5 := by
  refine ⟨by decide, by decide, by decide⟩

/-- Claim C2 (amended).  For every successful poll committed under a
non-empty key, the `index` field of the entry built by `get_address` equals
the `ModifyIndex` of the last record in the response carrying both an
address and a port (skipped records included), starting from 0 — not the
maximum per-record index, and not the previous cached index. -/
theorem stored_index_eq_last_modify_index (w : WatchService)
    (cur_index : Nat) (entry : List ServiceEntry) (k : String)
    (sa : ServiceAddress)
    (h : get_address w cur_index entry = some (k, sa)) (hk : k ≠ "") :
    sa.index = last_modify_index entry 0 := by
  obtain ⟨addrs, i, hl, hcase⟩ := get_address_spec w cur_index entry k sa h
  rcases hcase with ⟨_, hk0, _⟩ | ⟨_, _, hsa⟩
  · exact absurd hk0 hk
  · rw [hsa]
    exact get_address_loop_index cur_index entry [] 0 addrs i hl

/-- Witness for the amended C2 at the counterexample input. -/
theorem stored_index_eq_last_modify_index_witness :
    get_address ⟨"web", none, none⟩ 0
      [⟨some ⟨some "10.0.0.1", some 8080, some 5⟩⟩,
       ⟨some ⟨some "10.0.0.2", some 9090, some 3⟩⟩] =
      some ("web",
        ⟨3, ["10.0.0.1:8080", "10.0.0.2:9090"],
         ["10.0.0.1:8080", "10.0.0.2:9090"]⟩) ∧
    ("web" : String) ≠ "" ∧
    (⟨3, ["10.0.0.1:8080", "10.0.0.2:9090"],
      ["10.0.0.1:8080", "10.0.0.2:9090"]⟩ : ServiceAddress).index =
      last_modify_index
        [⟨some ⟨some "10.0.0.1", some 8080, some 5⟩⟩,
         ⟨some ⟨some "10.0.0.2", some 9090, some 3⟩⟩] 0 :=
  ⟨by decide, by decide,
    stored_index_eq_last_modify_index ⟨"web", none, none⟩ 0
      [⟨some ⟨some "10.0.0.1", some 8080, some 5⟩⟩,
       ⟨some ⟨some "10.0.0.2", some 9090, some 3⟩⟩] "web"
      ⟨3, ["10.0.0.1:8080", "10.0.0.2:9090"],
       ["10.0.0.1:8080", "10.0.0.2:9090"]⟩ (by decide) (by decide)⟩

/-- Claim C9 (counterexample).  A decoded response containing one record
whose service descriptor has an address and a port but no `ModifyIndex`
value makes `get_address` hit `v.ModifyIndex.unwrap()` and panic (modelled
as `none`): the unwrap is reachable with the field absent, contrary to the
claim. -/
theorem get_address_panics_on_missing_modify_index :
    get_address ⟨"web", none, none⟩ 0
      [⟨some ⟨some "10.0.0.1", some 8080, none⟩⟩] = none := by decide

/-- Claim C9 (amended).  `get_address` completes without panic on every
response in which each record whose service descriptor carries both an
address and a port also carries a `ModifyIndex`; without that guard the
unwrap is reachable, as the counterexample shows. -/
theorem get_address_no_panic_when_modify_index_present (w : WatchService)
    (cur_index : Nat) (entry : List ServiceEntry)
    (h : ∀ e ∈ entry, modify_index_present e = true) :
    (get_address w cur_index entry).isSome = true := by
  have hl := get_address_loop_isSome cur_index entry [] 0 h
  unfold get_address
  split
  next heq => rw [heq] at hl; cases hl
  next service_addresses index heq =>
    split <;> rfl

/-- Witness for the amended C9: a mixed response with a complete record and
a record with no service descriptor. -/
theorem get_address_no_panic_when_modify_index_present_witness :
    ([(⟨some ⟨some "10.0.0.1", some 8080, some 5⟩⟩ : ServiceEntry),
      ⟨none⟩].all modify_index_present) = true ∧
    (get_address ⟨"web", none, none⟩ 0
      [⟨some ⟨some "10.0.0.1", some 8080, some 5⟩⟩, ⟨none⟩]).isSome = true :=
  ⟨by decide,
    get_address_no_panic_when_modify_index_present ⟨"web", none, none⟩ 0
      [⟨some ⟨some "10.0.0.1", some 8080, some 5⟩⟩, ⟨none⟩] (by decide)⟩

/-- Claim C3.  A poll whose resulting filtered address list is empty is
returned under the sentinel key `""` and performs no cache update: a round
consisting of that result alone leaves the cache exactly as it was, and in
any round its presence changes nothing — the other results commit as if it
were absent, so a previously non-empty cached address list is never reduced
to empty. -/
theorem empty_filtered_list_no_cache_update (w : WatchService)
    (cur_index : Nat) (entry : List ServiceEntry) (k : String)
    (sa : ServiceAddress) (cache : Cache) (rs₁ rs₂ : List PollResult)
    (h : get_address w cur_index entry = some (k, sa))
    (hemp : sa.address = []) :
    k = "" ∧
    watch_round cache [Except.ok (k, sa)] = Except.ok cache ∧
    watch_round cache (rs₁ ++ Except.ok (k, sa) :: rs₂) =
      watch_round cache (rs₁ ++ rs₂) := by
  obtain ⟨addrs, i, hl, hcase⟩ := get_address_spec w cur_index entry k sa h
  rcases hcase with ⟨hnil, rfl, rfl⟩ | ⟨hne, hk, hsa⟩
  · refine ⟨rfl, ?_, ?_⟩
    · rfl
    · unfold watch_round
      rw [collect_round_skip]
  · rw [hsa] at hemp
    exact absurd hemp hne

/-- Witness for C3: a response whose only record is skipped as unchanged,
dropped from a round alongside another target's successful result. -/
theorem empty_filtered_list_no_cache_update_witness :
    get_address ⟨"web", none, none⟩ 5
      [⟨some ⟨some "10.0.0.1", some 8080, some 5⟩⟩] =
      some ("", ServiceAddress.default) ∧
    ServiceAddress.default.address = [] ∧
    ("" : String) = "" ∧
    watch_round (fun _ => none) [Except.ok ("", ServiceAddress.default)] =
      Except.ok (fun _ => none) ∧
    watch_round (fun _ => none)
      ([Except.ok ("other", ⟨1, ["o:1"], ["o:1"]⟩)] ++
        Except.ok ("", ServiceAddress.default) :: []) =
      watch_round (fun _ => none)
        ([Except.ok ("other", ⟨1, ["o:1"], ["o:1"]⟩)] ++ []) := by
  have t := empty_filtered_list_no_cache_update ⟨"web", none, none⟩ 5
    [⟨some ⟨some "10.0.0.1", some 8080, some 5⟩⟩] "" ServiceAddress.default
    (fun _ => none) [Except.ok ("other", ⟨1, ["o:1"], ["o:1"]⟩)] []
    (by decide) rfl
  exact ⟨by decide, rfl, t.1, t.2.1, t.2.2⟩

/-- Claim C4.  For every successful (non-panicking) poll, the address list
built by `get_address` is exactly the `host:port` formatting of the records
that carry both an address and a port and whose `ModifyIndex` differs from
the index cached at the start of the round, in response order. -/
theorem address_list_eq_filtered_records (w : WatchService)
    (cur_index : Nat) (entry : List ServiceEntry) (k : String)
    (sa : ServiceAddress)
    (h : get_address w cur_index entry = some (k, sa)) :
    sa.address = filtered_addresses cur_index entry := by
  obtain ⟨addrs, i, hl, hcase⟩ := get_address_spec w cur_index entry k sa h
  have haddrs := get_address_loop_addresses cur_index entry [] 0 addrs i hl
  simp only [List.nil_append] at haddrs
  rcases hcase with ⟨hnil, _, rfl⟩ | ⟨_, _, rfl⟩
  · rw [← haddrs, hnil]; rfl
  · exact haddrs

/-- Witness for C4: one kept record, one skipped as unchanged, one record
with no service descriptor, one record lacking a port. -/
theorem address_list_eq_filtered_records_witness :
    get_address ⟨"web", some "v1", none⟩ 5
      [⟨some ⟨some "10.0.0.2", some 9090, some 7⟩⟩,
       ⟨some ⟨some "10.0.0.1", some 8080, some 5⟩⟩,
       ⟨none⟩,
       ⟨some ⟨some "10.0.0.3", none, some 9⟩⟩] =
      some ("webv1", ⟨5, ["10.0.0.2:9090"], ["10.0.0.2:9090"]⟩) ∧
    (⟨5, ["10.0.0.2:9090"], ["10.0.0.2:9090"]⟩ : ServiceAddress).address =
      filtered_addresses 5
        [⟨some ⟨some "10.0.0.2", some 9090, some 7⟩⟩,
         ⟨some ⟨some "10.0.0.1", some 8080, some 5⟩⟩,
         ⟨none⟩,
         ⟨some ⟨some "10.0.0.3", none, some 9⟩⟩] :=
  ⟨by decide,
    address_list_eq_filtered_records ⟨"web", some "v1", none⟩ 5
      [⟨some ⟨some "10.0.0.2", some 9090, some 7⟩⟩,
       ⟨some ⟨some "10.0.0.1", some 8080, some 5⟩⟩,
       ⟨none⟩,
       ⟨some ⟨some "10.0.0.3", none, some 9⟩⟩] "webv1"
      ⟨5, ["10.0.0.2:9090"], ["10.0.0.2:9090"]⟩ (by decide)⟩

/-- Claim C5.  `random_policy` returns the not-found error (the
`"consul server address is empty"` `BadRequest`) exactly when the cache
has no entry for `service_name ++ tag` or the entry's address list is
empty; on a populated entry with a non-empty list it returns `Ok` with an
address. -/
theorem random_policy_not_found_iff (cache : Cache)
    (service_name tag : String) (rng : Nat) :
    (random_policy cache service_name tag rng =
        some (Except.error "consul server address is empty") ↔
      cache (service_name ++ tag) = none ∨
        ∃ sa, cache (service_name ++ tag) = some sa ∧ sa.address = []) ∧
    (∀ sa, cache (service_name ++ tag) = some sa → sa.address ≠ [] →
      ∃ a, random_policy cache service_name tag rng =
        some (Except.ok a)) := by
  constructor
  · cases hc : cache (service_name ++ tag) with
    | none =>
      simp [random_policy, random_policy_key, hc]
    | some sa =>
      by_cases h0 : sa.address = []
      · refine iff_of_true ?_ (Or.inr ⟨sa, rfl, h0⟩)
        simp [random_policy, random_policy_key, hc, h0]
      · obtain ⟨a, ha, _⟩ :=
          random_policy_ok cache service_name tag rng sa hc h0
        rw [ha]
        refine iff_of_false (by simp) ?_
        rintro (hn | ⟨sa', hsa', hemp⟩)
        · exact Option.noConfusion hn
        · obtain rfl := Option.some.inj hsa'
          exact h0 hemp
  · intro sa hsa hne
    obtain ⟨a, ha, _⟩ := random_policy_ok cache service_name tag rng sa hsa hne
    exact ⟨a, ha⟩

/-- Witness for C5 at an unpopulated cache: the not-found error is
returned. -/
theorem random_policy_not_found_iff_witness :
    random_policy (fun _ => none) "web" "" 0 =
      some (Except.error "consul server address is empty") :=
  (random_policy_not_found_iff (fun _ => none) "web" "" 0).1.mpr (Or.inl rfl)

/-- Claim C6.  On a cache entry with a non-empty address list the random
pick `rng % len` lies in `[0, len)` and `random_policy` returns `Ok` with
an element of the stored list: the `Vec::get(idx).unwrap()` after the pick
never panics (the result is never the `none` that models a panic). -/
theorem random_policy_pick_in_range (cache : Cache)
    (service_name tag : String) (rng : Nat) (sa : ServiceAddress)
    (h : cache (service_name ++ tag) = some sa) (hne : sa.address ≠ []) :
    rng % sa.address.length < sa.address.length ∧
    ∃ a, random_policy cache service_name tag rng = some (Except.ok a) ∧
      a ∈ sa.address :=
  ⟨Nat.mod_lt _ (List.length_pos.mpr hne),
    random_policy_ok cache service_name tag rng sa h hne⟩

/-- Witness for C6 on a two-address entry. -/
theorem random_policy_pick_in_range_witness :
    (3 : Nat) %
        (⟨5, ["a:1", "b:2"], ["a:1", "b:2"]⟩ : ServiceAddress).address.length <
      (⟨5, ["a:1", "b:2"], ["a:1", "b:2"]⟩ : ServiceAddress).address.length ∧
    ∃ a, random_policy
        (fun k => if k = "webv1" then
          some ⟨5, ["a:1", "b:2"], ["a:1", "b:2"]⟩ else none)
        "web" "v1" 3 = some (Except.ok a) ∧
      a ∈ (⟨5, ["a:1", "b:2"], ["a:1", "b:2"]⟩ : ServiceAddress).address :=
  random_policy_pick_in_range
    (fun k => if k = "webv1" then
      some ⟨5, ["a:1", "b:2"], ["a:1", "b:2"]⟩ else none)
    "web" "v1" 3 ⟨5, ["a:1", "b:2"], ["a:1", "b:2"]⟩ (by decide) (by decide)

/-- The `tag` field of `health_service`'s query map as a function of the
target's optional tag alone (it does not depend on `passing_only`). -/
theorem health_query_tag (config : Config) (cache : Cache) (sn : String)
    (tg : Option String) (po : Option Bool) (t : String) :
    (health_service_query config cache ⟨sn, tg, po⟩).tag = some t ↔
      (tg = some t ∧ t ≠ "") := by
  have hfield : (health_service_query config cache ⟨sn, tg, po⟩).tag =
      (if tg.getD "" = "" then none else some (tg.getD "")) := by
    rcases po with _ | b
    · rfl
    · cases b <;> rfl
  rw [hfield]
  cases tg with
  | none => simp
  | some t0 =>
    by_cases ht : t0 = ""
    · subst ht
      rw [Option.getD_some, if_pos rfl]
      constructor
      · intro h
        exact Option.noConfusion h
      · rintro ⟨h1, h2⟩
        obtain rfl := Option.some.inj h1
        exact absurd rfl h2
    · rw [Option.getD_some, if_neg ht]
      constructor
      · intro h
        obtain rfl := Option.some.inj h
        exact ⟨rfl, ht⟩
      · rintro ⟨h1, _⟩
        exact h1.symm ▸ rfl

/-- The `index` field of `health_service`'s query map: always present,
always the cached index of the key. -/
theorem health_query_index (config : Config) (cache : Cache) (sn : String)
    (tg : Option String) (po : Option Bool) :
    (health_service_query config cache ⟨sn, tg, po⟩).index =
      toString (cachedIndex cache (sn ++ tg.getD "")) := by
  rcases po with _ | b
  · rfl
  · cases b <;> rfl

/-- The `passing` and `wait` fields of `health_service`'s query map as a
function of `passing_only` and the configured wait duration. -/
theorem health_query_passing_wait (wt : Option String) (cache : Cache)
    (sn : String) (tg : Option String) (po : Option Bool) :
    ((health_service_query ⟨wt⟩ cache ⟨sn, tg, po⟩).passing,
      (health_service_query ⟨wt⟩ cache ⟨sn, tg, po⟩).wait) =
      (match po with
        | some true => (some "1", some (wt.getD "5s"))
        | _ => (none, none)) := by
  rcases po with _ | b
  · rfl
  · cases b
    · rfl
    · cases wt <;> rfl

/-- Claim C7.  The blocking query built by `health_service` carries `tag`
exactly when the target's tag is set and non-empty, always carries `index`
equal to the cached index for the key (0 if never polled), and carries
`passing = "1"` together with `wait` exactly when `passing_only` is
`Some(true)`, with `wait` the configured duration or `"5s"` by default. -/
theorem health_service_query_params (config : Config) (cache : Cache)
    (w : WatchService) :
    (∀ t, (health_service_query config cache w).tag = some t ↔
      (w.tag = some t ∧ t ≠ "")) ∧
    (health_service_query config cache w).index =
      toString (cachedIndex cache (w.service_name ++ w.tag.getD "")) ∧
    (((health_service_query config cache w).passing = some "1" ∧
        (health_service_query config cache w).wait.isSome = true) ↔
      w.passing_only = some true) ∧
    (w.passing_only = some true →
      (health_service_query config cache w).wait =
        some (config.wait_time.getD "5s")) := by
  obtain ⟨sn, tg, po⟩ := w
  obtain ⟨wt⟩ := config
  have hpw := health_query_passing_wait wt cache sn tg po
  refine ⟨fun t => health_query_tag ⟨wt⟩ cache sn tg po t,
    health_query_index ⟨wt⟩ cache sn tg po, ?_, ?_⟩
  · rcases po with _ | b
    · simp only [Prod.mk.injEq] at hpw
      rw [hpw.1, hpw.2]
      simp
    · cases b
      · simp only [Prod.mk.injEq] at hpw
        rw [hpw.1, hpw.2]
        simp
      · simp only [Prod.mk.injEq] at hpw
        rw [hpw.1, hpw.2]
        simp
  · intro hpo
    have hpo2 : po = some true := hpo
    rw [hpo2] at hpw
    rw [hpo2]
    simp only [Prod.mk.injEq] at hpw
    exact hpw.2

/-- Witness for C7: a target with a non-empty tag and `passing_only` set,
against a configuration with an explicit wait duration. -/
theorem health_service_query_params_witness :
    ((health_service_query ⟨some "30s"⟩ (fun _ => none)
        ⟨"web", some "v1", some true⟩).tag = some "v1" ↔
      ((some "v1" : Option String) = some "v1" ∧ ("v1" : String) ≠ "")) ∧
    (health_service_query ⟨some "30s"⟩ (fun _ => none)
        ⟨"web", some "v1", some true⟩).index =
      toString (cachedIndex (fun _ => none) ("web" ++ "v1")) ∧
    (health_service_query ⟨some "30s"⟩ (fun _ => none)
        ⟨"web", some "v1", some true⟩).wait = some "30s" := by
  have t := health_service_query_params ⟨some "30s"⟩ (fun _ => none)
    ⟨"web", some "v1", some true⟩
  refine ⟨t.1 "v1", ?_, ?_⟩
  · have h := t.2.1
    simpa using h
  · have h := t.2.2.2 rfl
    simpa using h

/-- Claim C8.  The poll path (`health_service`), the commit path
(`get_address`) and the selection path (`random_policy`) all derive the
same cache key for a given target: `service_name` concatenated with the
tag (empty string when no tag is set), so a select for a pair reads exactly
the entry the watch loop wrote for that pair. -/
theorem cache_key_coherent (w : WatchService) :
    health_service_key w = get_address_key w ∧
    random_policy_key w.service_name (w.tag.getD "") = health_service_key w ∧
    health_service_key w = w.service_name ++ w.tag.getD "" := by
  obtain ⟨sn, tg, po⟩ := w
  cases tg <;> exact ⟨rfl, rfl, rfl⟩

/-- Claim C10.  If every entry already in the cache has a non-empty address
list and every successful result of the round was produced by
`get_address`, then after the round commits, every cache entry still has a
non-empty address list — results with an empty filtered list were returned
under the `""` key and dropped before insertion — and consequently the
empty-list error branch of `random_policy` is unreachable on any populated
key of the committed cache. -/
theorem watch_loop_entries_nonempty (cache : Cache)
    (results : List PollResult) (cache' : Cache)
    (hinv : ∀ k sa, cache k = some sa → sa.address ≠ [])
    (hres : ∀ kv, Except.ok kv ∈ results →
      ∃ w cur_index entry, get_address w cur_index entry = some kv)
    (h : watch_round cache results = Except.ok cache') :
    (∀ k sa, cache' k = some sa → sa.address ≠ []) ∧
    (∀ service_name tag rng sa,
      cache' (service_name ++ tag) = some sa →
      ∃ a, random_policy cache' service_name tag rng =
        some (Except.ok a)) := by
  unfold watch_round at h
  split at h
  next e hc => cases h
  next kvs hc =>
    obtain rfl := Except.ok.inj h
    have hkv : ∀ kv ∈ kvs, kv.2.address ≠ [] := by
      intro kv hkvs
      obtain ⟨hmem, hne⟩ := collect_round_mem results kvs hc kv hkvs
      obtain ⟨w, cur_index, entry, hga⟩ := hres kv hmem
      exact get_address_nonempty w cur_index entry kv.1 kv.2 hga hne
    have hinv' := foldl_insert_inv kvs cache hkv hinv
    refine ⟨hinv', ?_⟩
    intro service_name tag rng sa hsa
    obtain ⟨a, ha, _⟩ :=
      random_policy_ok _ service_name tag rng sa hsa (hinv' _ _ hsa)
    exact ⟨a, ha⟩

/-- Witness for C10: a one-target round committed into an empty cache. -/
theorem watch_loop_entries_nonempty_witness :
    (⟨5, ["10.0.0.1:8080"], ["10.0.0.1:8080"]⟩ : ServiceAddress).address ≠
      [] ∧
    ∃ a, random_policy
        (cacheInsert (fun _ => none) "web"
          ⟨5, ["10.0.0.1:8080"], ["10.0.0.1:8080"]⟩) "web" "" 0 =
      some (Except.ok a) := by
  have t := watch_loop_entries_nonempty (fun _ => none)
    [Except.ok ("web", ⟨5, ["10.0.0.1:8080"], ["10.0.0.1:8080"]⟩)]
    (cacheInsert (fun _ => none) "web"
      ⟨5, ["10.0.0.1:8080"], ["10.0.0.1:8080"]⟩)
    (fun k sa h => Option.noConfusion h)
    (by
      intro kv hkv
      simp only [List.mem_singleton, Except.ok.injEq] at hkv
      subst hkv
      exact ⟨⟨"web", none, none⟩, 0,
        [⟨some ⟨some "10.0.0.1", some 8080, some 5⟩⟩], by decide⟩)
    rfl
  exact ⟨t.1 "web" _ rfl, t.2 "web" "" 0 _ rfl⟩

end ConsulRs
